import Mathlib

/-!
Verification development for the mcp-grafana server.

This file gives a shallow embedding of the pure transformation logic of the
repository (dashboard panel-query extraction, alert-rule state enrichment,
Tempo/Loki client helpers) and proves the spec's testable properties about it.

Modelling conventions:
* JSON documents are modelled by the inductive `JValue`.  JSON numbers are
  modelled as integers (`Int`): none of the properties proved here depends on
  floating-point behaviour, only on presence/absence and type tags of fields.
* Go type assertions `x.(map[string]any)`, `x.([]any)`, `x.(string)` become
  the partial projections `JValue.asObj`, `JValue.asArr` and the `jStrField`
  lookup: they succeed exactly when the dynamic type matches.
* Go maps built by insertion (`m[k] = v` in iteration order) are modelled as
  association lists where lookup returns the value of the LAST insertion for a
  key (`List.reverse.find?`), matching Go's overwrite-on-insert semantics.
* Fallible Go functions returning `(T, error)` become `Except String T`.
* HTTP calls are factored out: each handler model takes the decoded upstream
  response (or the fetch error) as an explicit argument, and the pure
  reshaping logic is translated from the source.
-/

namespace McpGrafana

/-- A JSON value.  Numbers are modelled as integers (see module docstring). -/
inductive JValue where
  | null : JValue
  | bool (b : Bool) : JValue
  | num (n : Int) : JValue
  | str (s : String) : JValue
  | arr (elems : List JValue) : JValue
  | obj (fields : List (String × JValue)) : JValue

/-- Key lookup in a JSON object, as Go's `m[key]` on `map[string]any`
decoded from JSON (keys are unique, so first match suffices). -/
def jGet (fields : List (String × JValue)) (key : String) : Option JValue :=
  (fields.find? (fun p => p.1 == key)).map Prod.snd

/-- Go type assertion `v.(map[string]any)`. -/
def JValue.asObj : JValue → Option (List (String × JValue))
  | .obj fields => some fields
  | _ => none

/-- Go type assertion `v.([]any)`. -/
def JValue.asArr : JValue → Option (List JValue)
  | .arr elems => some elems
  | _ => none

/-- Go pattern `s, ok := m[key].(string)`: the field is present AND is a
string. -/
def jStrField (m : List (String × JValue)) (key : String) : Option String :=
  match jGet m key with
  | some (JValue.str s) => some s
  | _ => none

/-! ## DashboardQueryExtractor
Translated from `internal/tools/dashboard/get_panel_queries.go`
(`extractPanelQueries`). -/

/-- `PanelQuery` from `get_panel_queries.go`. -/
structure PanelQuery where
  panelID : Int
  panelTitle : String
  datasourceUID : String
  datasourceType : String
  refID : String
  queryExpr : String
  rawQuery : List (String × JValue)

/-- Go: `panelID := 0; if id, ok := panelMap["id"].(float64) ... panelID = int(id)`. -/
def panelIdOf (pm : List (String × JValue)) : Int :=
  match jGet pm "id" with
  | some (JValue.num n) => n
  | _ => 0

/-- Go: `panelTitle := ""; if title, ok := panelMap["title"].(string) ...`. -/
def panelTitleOf (pm : List (String × JValue)) : String :=
  match jGet pm "title" with
  | some (JValue.str s) => s
  | _ => ""

/-- Go lines 80-90 of `get_panel_queries.go`: panel-level datasource
`(uid, type)`, each field independently defaulting to the empty string. -/
def panelDatasource (pm : List (String × JValue)) : String × String :=
  match (jGet pm "datasource").bind JValue.asObj with
  | some ds => ((jStrField ds "uid").getD "", (jStrField ds "type").getD "")
  | none => ("", "")

/-- Go lines 111-119: start from the panel-level pair and overwrite each of
`uid`/`type` independently when present (as a string) on the target's
`datasource` object. -/
def targetDatasource (panelDs : String × String)
    (tm : List (String × JValue)) : String × String :=
  match (jGet tm "datasource").bind JValue.asObj with
  | some ds => ((jStrField ds "uid").getD panelDs.1,
                (jStrField ds "type").getD panelDs.2)
  | none => panelDs

/-- Go lines 126-132: `expr` if present as a non-empty string, else `query`
if present as a non-empty string, else empty. -/
def resolveQueryExpr (tm : List (String × JValue)) : String :=
  let fallback : String :=
    match jStrField tm "query" with
    | some q => if q = "" then "" else q
    | none => ""
  match jStrField tm "expr" with
  | some e => if e = "" then fallback else e
  | none => fallback

/-- Go lines 98-138, body of the inner target loop: a non-object target is
skipped (`continue`), an object target yields one `PanelQuery`. -/
def extractTarget (panelID : Int) (panelTitle : String)
    (panelDs : String × String) (t : JValue) : Option PanelQuery :=
  match t.asObj with
  | none => none
  | some tm =>
    let ds := targetDatasource panelDs tm
    some { panelID := panelID
           panelTitle := panelTitle
           datasourceUID := ds.1
           datasourceType := ds.2
           refID := (jStrField tm "refId").getD ""
           queryExpr := resolveQueryExpr tm
           rawQuery := tm }

/-- Go lines 64-139, body of the panel loop: a non-object panel is skipped,
a panel without a `targets` array contributes nothing, otherwise each object
target yields one query. -/
def extractFromPanel (p : JValue) : List PanelQuery :=
  match p.asObj with
  | none => []
  | some pm =>
    match (jGet pm "targets").bind JValue.asArr with
    | none => []
    | some targets =>
      targets.filterMap
        (extractTarget (panelIdOf pm) (panelTitleOf pm) (panelDatasource pm))

/-- Go `extractPanelQueries` (lines 51-142): returns the empty list when the
dashboard is not an object or has no `panels` array, otherwise concatenates
the queries of every panel in document order. -/
def extractPanelQueries (dashboard : JValue) : List PanelQuery :=
  match dashboard.asObj with
  | none => []
  | some dm =>
    match (jGet dm "panels").bind JValue.asArr with
    | none => []
    | some panels => panels.flatMap extractFromPanel

/-- The panels sequence of a dashboard document, empty when absent/mistyped. -/
def panelsOf (d : JValue) : List JValue :=
  match d.asObj with
  | none => []
  | some dm =>
    match (jGet dm "panels").bind JValue.asArr with
    | none => []
    | some panels => panels

/-- The targets sequence of a panel object, empty when absent/mistyped. -/
def targetsOf (pm : List (String × JValue)) : List JValue :=
  match (jGet pm "targets").bind JValue.asArr with
  | none => []
  | some targets => targets

/-- The targets sequence of an arbitrary panel node. -/
def targetsOfPanel (p : JValue) : List JValue :=
  match p.asObj with
  | none => []
  | some pm => targetsOf pm

/-- Spec-side measure (from the spec's words, for comparison with the code):
the sum over panels of the length of each panel's targets sequence, counting
0 for a panel whose targets field is absent or not a sequence. -/
def specTargetCount (d : JValue) : Nat :=
  ((panelsOf d).map (fun p => (targetsOfPanel p).length)).sum

/-- The measure the code actually realises: only object-valued entries of a
targets sequence produce a `PanelQuery`. -/
def codeTargetCount (d : JValue) : Nat :=
  ((panelsOf d).map
    (fun p => (targetsOfPanel p).countP (fun t => t.asObj.isSome))).sum

/-! ## AlertRuleAggregator
Translated from `internal/tools/alerting/list_rules.go` and the alerting
client (`Rule`, `RuleSummary`, `prometheusRule*`, `listRules`,
`getRulesWithState`). -/

/-- `Rule` from the provisioning API (alerting client).  String maps are
modelled as association lists.  The Go field `For` is named `forDuration`
here because `for` is reserved in Lean. -/
structure Rule where
  uid : String
  title : String
  folderUID : String
  ruleGroup : String
  forDuration : String
  annotations : List (String × String)
  labels : List (String × String)
  condition : String
  noDataState : String
  execErrState : String
  updated : String
  isPaused : Bool

/-- `RuleSummary` from the alerting client. -/
structure RuleSummary where
  uid : String
  title : String
  state : String
  health : String
  folderUID : String
  ruleGroup : String
  forDuration : String
  labels : List (String × String)
  annotations : List (String × String)
  isPaused : Bool
deriving DecidableEq

/-- `prometheusRule` from the alerting client (live-evaluation API entry). -/
structure PrometheusRule where
  name : String
  query : String
  labels : List (String × String)
  annotations : List (String × String)
  state : String
  health : String
  type : String
deriving DecidableEq

/-- `prometheusRuleGroup` from the alerting client. -/
structure PrometheusRuleGroup where
  name : String
  rules : List PrometheusRule
deriving DecidableEq

/-- `alertStateKey` (list_rules.go lines 17-20): the composite join key. -/
def alertStateKey (title ruleGroup : String) : String :=
  title ++ "|" ++ ruleGroup

/-- The summary built for one live rule inside `getRulesWithState`
(lines 297-304): only title, state, health, group, labels, annotations are
set; the remaining fields stay at their zero values. -/
def ruleStateSummary (groupName : String) (r : PrometheusRule) : RuleSummary :=
  { uid := ""
    title := r.name
    state := r.state
    health := r.health
    folderUID := ""
    ruleGroup := groupName
    forDuration := ""
    labels := r.labels
    annotations := r.annotations
    isPaused := false }

/-- Pure part of `getRulesWithState` (lines 291-307): walk every group and
every rule, skipping entries whose `Type` is not `"alerting"`. -/
def rulesWithState (groups : List PrometheusRuleGroup) : List RuleSummary :=
  groups.flatMap (fun g =>
    (g.rules.filter (fun r => r.type == "alerting")).map (ruleStateSummary g.name))

/-- Lookup in the Go map `stateMap` of `listRulesHandler` (lines 45-57):
the map is filled in iteration order with overwrite-on-insert, so lookup
returns the LAST inserted summary whose composite key matches. -/
def stateMapLookup (stateRules : List RuleSummary) (key : String) :
    Option RuleSummary :=
  stateRules.reverse.find? (fun sr => alertStateKey sr.title sr.ruleGroup == key)

/-- The summary constructed from a provisioning rule before enrichment
(list_rules.go lines 62-71): `State`/`Health` start empty. -/
def baseSummary (r : Rule) : RuleSummary :=
  { uid := r.uid
    title := r.title
    state := ""
    health := ""
    folderUID := r.folderUID
    ruleGroup := r.ruleGroup
    forDuration := r.forDuration
    labels := r.labels
    annotations := r.annotations
    isPaused := r.isPaused }

/-- One iteration of the summary loop (lines 61-82): look up the composite
key and copy `State`/`Health` when found, only when enrichment is on. -/
def ruleToSummary (includeState : Bool) (stateRules : List RuleSummary)
    (r : Rule) : RuleSummary :=
  let summary := baseSummary r
  if includeState then
    match stateMapLookup stateRules (alertStateKey r.title r.ruleGroup) with
    | some stateSummary =>
      { summary with state := stateSummary.state, health := stateSummary.health }
    | none => summary
  else summary

/-- `listRulesHandler` (lines 38-82), with the two HTTP fetches replaced by
their decoded results: the provisioning fetch result is the primary payload
(its error fails the call), the live-state fetch result only feeds the state
map and its error is swallowed (lines 47-51). -/
def listRulesResult (rulesFetch : Except String (List Rule))
    (includeState : Bool)
    (stateFetch : Except String (List PrometheusRuleGroup)) :
    Except String (List RuleSummary) :=
  match rulesFetch with
  | .error e => .error e
  | .ok rules =>
    let stateRules : List RuleSummary :=
      if includeState then
        match stateFetch with
        | .ok groups => rulesWithState groups
        | .error _ => []
      else []
    .ok (rules.map (ruleToSummary includeState stateRules))

/-- `DefaultRulesLimit` from the alerting client. -/
def DefaultRulesLimit : Int := 100

/-- Effective limit computed in `listRulesHandler` lines 33-36. -/
def effectiveRulesLimit (paramsLimit : Int) : Int :=
  if paramsLimit ≤ 0 then DefaultRulesLimit else paramsLimit

/-- Query parameters built by `client.listRules` (lines 244-248): the limit
is forwarded to the provisioning API as a query parameter when positive. -/
def listRulesQueryParams (limit : Int) : List (String × String) :=
  if limit > 0 then [("limit", toString limit)] else []

/-! ## Tempo client
Translated from the tempo package client (unnamed source, `enforceTraceLimit`,
`searchTraces`, `makeRequest`, `getTrace`) and `tempo/search_traces.go`. -/

/-- `DefaultTraceLimit` from the tempo client. -/
def DefaultTraceLimit : Int := 20

/-- `MaxTraceLimit` from the tempo client. -/
def MaxTraceLimit : Int := 100

/-- `enforceTraceLimit` from the tempo client. -/
def enforceTraceLimit (requestedLimit : Int) : Int :=
  if requestedLimit ≤ 0 then DefaultTraceLimit
  else if requestedLimit > MaxTraceLimit then MaxTraceLimit
  else requestedLimit

/-- Query parameters built by the tempo client `searchTraces`: each of
`q`, `start`, `end` when non-empty, and `limit` when positive. -/
def tempoSearchParams (query startUnix endUnix : String) (limit : Int) :
    List (String × String) :=
  (if query ≠ "" then [("q", query)] else []) ++
  (if startUnix ≠ "" then [("start", startUnix)] else []) ++
  (if endUnix ≠ "" then [("end", endUnix)] else []) ++
  (if limit > 0 then [("limit", toString limit)] else [])

/-- Body handling of the tempo client `makeRequest`: the whole response body
is read with `io.ReadAll` (no `LimitReader`), then the status is checked.
The body is modelled as the byte sequence the upstream sends. -/
def tempoMakeRequest (status : Nat) (body : List UInt8) :
    Except String (List UInt8) :=
  if status ≠ 200 then
    .error ("API returned status " ++ toString status)
  else
    .ok body

/-! ## Loki client
Translated from the loki package client (unnamed source, `makeRequest`). -/

/-- The 48 MiB ceiling of the loki client (`io.LimitReader(resp.Body, 1024*1024*48)`). -/
def lokiBodyLimit : Nat := 1024 * 1024 * 48

/-- ASCII whitespace, for `bytes.TrimSpace`.  (Multi-byte Unicode spaces are
not modelled; trimming only ever shortens the body, which is all the length
bound needs.) -/
def isASCIISpace (b : UInt8) : Bool :=
  b == 9 || b == 10 || b == 11 || b == 12 || b == 13 || b == 32

/-- `bytes.TrimSpace` on the modelled body. -/
def trimSpace (bs : List UInt8) : List UInt8 :=
  ((bs.dropWhile isASCIISpace).reverse.dropWhile isASCIISpace).reverse

/-- Body handling of the loki client `makeRequest` (status-200 path): the
body is read through `io.LimitReader` with `lokiBodyLimit`, rejected when
empty, and trimmed. -/
def lokiMakeRequest (status : Nat) (body : List UInt8) :
    Except String (List UInt8) :=
  if status ≠ 200 then
    .error ("loki API returned status code " ++ toString status)
  else
    let bodyBytes := body.take lokiBodyLimit
    if bodyBytes.length = 0 then .error "empty response from Loki API"
    else .ok (trimSpace bodyBytes)

/-! ## Uint64-as-string decoding
Translated from `internal/tools/tempo_client.go` lines 16-35
(`uint64String.UnmarshalJSON`) together with the semantics of
`strconv.ParseUint(s, 10, 64)`. -/

/-- Largest uint64 value, the `bitSize = 64` cutoff of `strconv.ParseUint`. -/
def maxUint64 : Nat := 18446744073709551615

/-- Digit-by-digit accumulation of `strconv.ParseUint(s, 10, 64)`: a
non-digit character fails, and an accumulator exceeding `maxUint64` fails
(Go's range check). -/
def parseUint64Go : List Char → Nat → Option Nat
  | [], acc => some acc
  | c :: cs, acc =>
    if c.isDigit then
      let acc2 := acc * 10 + (c.toNat - 48)
      if acc2 ≤ maxUint64 then parseUint64Go cs acc2 else none
    else none

/-- `strconv.ParseUint(s, 10, 64)`: the empty string is a syntax error. -/
def parseUint64 (s : String) : Option Nat :=
  if s.isEmpty then none else parseUint64Go s.data 0

/-- `uint64String.UnmarshalJSON` applied to a decoded JSON value: the wire
value must be a JSON string; the empty string decodes to 0; otherwise
`strconv.ParseUint` decides. -/
def uint64StringUnmarshalJSON (j : JValue) : Except String Nat :=
  match j with
  | .str s =>
    if s = "" then .ok 0
    else
      match parseUint64 s with
      | some v => .ok v
      | none => .error ("parsing uint64 from string " ++ s)
  | _ => .error "json: cannot unmarshal value into Go value of type string"

/-- The base-10 value of a digit string. -/
def digitsValue (s : String) : Nat :=
  s.data.foldl (fun acc c => acc * 10 + (c.toNat - 48)) 0

/-- Spec-side validity predicate: a non-empty all-digit string whose value
fits in 64 bits (what the spec calls a valid base-10 uint64). -/
def isValidUint64 (s : String) : Bool :=
  !s.isEmpty && s.data.all Char.isDigit && digitsValue s ≤ maxUint64

/-! ## Helper lemmas: dashboard extraction -/

theorem length_filterMap_eq_countP {α β : Type} (f : α → Option β) (l : List α) :
    (l.filterMap f).length = l.countP (fun a => (f a).isSome) := by
  induction l with
  | nil => rfl
  | cons a l ih =>
    cases h : f a <;>
      simp [List.filterMap_cons, h, List.countP_cons, ih]

theorem extractTarget_isSome (pid : Int) (pt : String) (pds : String × String)
    (t : JValue) : (extractTarget pid pt pds t).isSome = t.asObj.isSome := by
  cases t <;> rfl

theorem JValue.asObj_eq_some {p : JValue} {pm : List (String × JValue)}
    (h : p.asObj = some pm) : p = JValue.obj pm := by
  cases p <;> simp_all [JValue.asObj]

theorem extractFromPanel_length (p : JValue) :
    (extractFromPanel p).length =
      (targetsOfPanel p).countP (fun t => t.asObj.isSome) := by
  cases p
  case obj pm =>
    show (match (jGet pm "targets").bind JValue.asArr with
          | none => ([] : List PanelQuery)
          | some targets => targets.filterMap
              (extractTarget (panelIdOf pm) (panelTitleOf pm) (panelDatasource pm))).length =
      (match (jGet pm "targets").bind JValue.asArr with
          | none => ([] : List JValue)
          | some targets => targets).countP (fun (t : JValue) => t.asObj.isSome)
    cases (jGet pm "targets").bind JValue.asArr with
    | none => rfl
    | some ts =>
      rw [length_filterMap_eq_countP]
      simp only [extractTarget_isSome]
  all_goals rfl

theorem extractPanelQueries_eq_flatMap (d : JValue) :
    extractPanelQueries d = (panelsOf d).flatMap extractFromPanel := by
  cases d
  case obj dm =>
    unfold extractPanelQueries panelsOf
    simp only [JValue.asObj]
    cases (jGet dm "panels").bind JValue.asArr with
    | none => rfl
    | some ps => rfl
  all_goals rfl

theorem extractTarget_eq_some {pid : Int} {pt : String} {pds : String × String}
    {t : JValue} {q : PanelQuery}
    (h : extractTarget pid pt pds t = some q) :
    ∃ tm, t = JValue.obj tm ∧
      q.panelID = pid ∧ q.panelTitle = pt ∧
      q.datasourceUID = (targetDatasource pds tm).1 ∧
      q.datasourceType = (targetDatasource pds tm).2 ∧
      q.refID = (jStrField tm "refId").getD "" ∧
      q.queryExpr = resolveQueryExpr tm ∧
      q.rawQuery = tm := by
  cases t <;> simp [extractTarget, JValue.asObj] at h
  case obj tm =>
    exact ⟨tm, rfl, by simp [h.symm]⟩

theorem mem_extractPanelQueries {d : JValue} {q : PanelQuery}
    (h : q ∈ extractPanelQueries d) :
    ∃ pm, JValue.obj pm ∈ panelsOf d ∧ ∃ tm, JValue.obj tm ∈ targetsOf pm ∧
      extractTarget (panelIdOf pm) (panelTitleOf pm) (panelDatasource pm)
        (JValue.obj tm) = some q := by
  rw [extractPanelQueries_eq_flatMap] at h
  obtain ⟨p, hp, hq⟩ := List.mem_flatMap.mp h
  cases hpm : p.asObj with
  | none =>
    exfalso
    cases p <;> simp [JValue.asObj] at hpm <;> simp [extractFromPanel, JValue.asObj] at hq
  | some pm =>
    cases JValue.asObj_eq_some hpm
    refine ⟨pm, hp, ?_⟩
    unfold extractFromPanel at hq
    simp only [JValue.asObj] at hq
    cases h2 : (jGet pm "targets").bind JValue.asArr with
    | none => rw [h2] at hq; simp at hq
    | some ts =>
      rw [h2] at hq
      obtain ⟨t, ht, hft⟩ := List.mem_filterMap.mp hq
      obtain ⟨tm, rfl, -⟩ := extractTarget_eq_some hft
      exact ⟨tm, by unfold targetsOf; rw [h2]; exact ht, hft⟩

/-- Spec-side field resolution (from the spec's words): the target-level
value when present, else the panel-level value when present, else empty. -/
def specResolveDsField (tgt pan : Option String) : String :=
  match tgt with
  | some v => v
  | none => match pan with | some v => v | none => ""

/-- The datasource field a node (panel or target) carries for key `k`:
present exactly when the node has an object-valued `datasource` whose `k`
field is a string. -/
def dsField (m : List (String × JValue)) (k : String) : Option String :=
  ((jGet m "datasource").bind JValue.asObj).bind (fun ds => jStrField ds k)

theorem panelDatasource_fst (pm : List (String × JValue)) :
    (panelDatasource pm).1 = (dsField pm "uid").getD "" := by
  unfold panelDatasource dsField
  cases h : (jGet pm "datasource").bind JValue.asObj <;> simp [h]

theorem panelDatasource_snd (pm : List (String × JValue)) :
    (panelDatasource pm).2 = (dsField pm "type").getD "" := by
  unfold panelDatasource dsField
  cases h : (jGet pm "datasource").bind JValue.asObj <;> simp [h]

theorem specResolveDsField_eq (tgt pan : Option String) :
    specResolveDsField tgt pan = tgt.getD (pan.getD "") := by
  cases tgt <;> cases pan <;> rfl

theorem targetDatasource_fst_getD (pds : String × String)
    (tm : List (String × JValue)) :
    (targetDatasource pds tm).1 = (dsField tm "uid").getD pds.1 := by
  unfold targetDatasource dsField
  cases (jGet tm "datasource").bind JValue.asObj with
  | none => rfl
  | some ds => cases h2 : jStrField ds "uid" <;> simp [h2]

theorem targetDatasource_snd_getD (pds : String × String)
    (tm : List (String × JValue)) :
    (targetDatasource pds tm).2 = (dsField tm "type").getD pds.2 := by
  unfold targetDatasource dsField
  cases (jGet tm "datasource").bind JValue.asObj with
  | none => rfl
  | some ds => cases h2 : jStrField ds "type" <;> simp [h2]

theorem targetDatasource_fst (pm tm : List (String × JValue)) :
    (targetDatasource (panelDatasource pm) tm).1 =
      specResolveDsField (dsField tm "uid") (dsField pm "uid") := by
  rw [targetDatasource_fst_getD, specResolveDsField_eq, panelDatasource_fst]

theorem targetDatasource_snd (pm tm : List (String × JValue)) :
    (targetDatasource (panelDatasource pm) tm).2 =
      specResolveDsField (dsField tm "type") (dsField pm "type") := by
  rw [targetDatasource_snd_getD, specResolveDsField_eq, panelDatasource_snd]

/-! ## Claim C2 -/

/-- Claim C2 (amended).  For every dashboard document, the number of
`PanelQuery` entries produced by extraction equals the sum over all panels
of the number of OBJECT-VALUED entries of that panel's targets sequence
(counting 0 for a panel whose targets field is absent or not a sequence);
in particular, whenever every entry of every targets sequence is an object,
it equals the sum of the targets lengths, extraction never drops or
duplicates an object target, and the result is the empty sequence when the
panels field is absent or not a sequence.  (The original claim counted
non-object target entries too; the code skips them — see the
counterexample.) -/
theorem C2_extraction_count (d : JValue) :
    (extractPanelQueries d).length = codeTargetCount d ∧
    ((∀ p ∈ panelsOf d, ∀ t ∈ targetsOfPanel p, t.asObj.isSome = true) →
      (extractPanelQueries d).length = specTargetCount d) := by
  have hcode : (extractPanelQueries d).length = codeTargetCount d := by
    rw [extractPanelQueries_eq_flatMap, List.length_flatMap]
    unfold codeTargetCount
    congr 1
    simp [Function.comp_def, extractFromPanel_length]
  refine ⟨hcode, fun h => hcode.trans ?_⟩
  unfold codeTargetCount specTargetCount
  congr 1
  refine List.map_congr_left (fun p hp => ?_)
  exact List.countP_eq_length.mpr (fun t ht => h p hp t ht)

/-- Concrete dashboard whose only panel has a one-element targets sequence
holding a string (not an object). -/
def cxDashboard : JValue :=
  JValue.obj [("panels", JValue.arr
    [JValue.obj [("targets", JValue.arr [JValue.str "oops"])]])]

/-- Claim C2, counterexample to the claim as stated: on `cxDashboard` the
sum over panels of the targets lengths is 1, but extraction drops the
non-object target entry and produces no `PanelQuery` at all. -/
theorem C2_counterexample :
    extractPanelQueries cxDashboard = [] ∧
    specTargetCount cxDashboard = 1 ∧
    (extractPanelQueries cxDashboard).length ≠ specTargetCount cxDashboard :=
  ⟨rfl, rfl, by decide⟩

/-- A well-formed two-panel dashboard: the spec's scenario document (panel
with datasource ds1/prometheus and two object targets, second panel without
targets). -/
def wDashboard : JValue :=
  JValue.obj [
    ("title", JValue.str "demo"),
    ("panels", JValue.arr [
      JValue.obj [
        ("id", JValue.num 1),
        ("title", JValue.str "panel one"),
        ("datasource", JValue.obj [("uid", JValue.str "ds1"),
                                   ("type", JValue.str "prometheus")]),
        ("targets", JValue.arr [
          JValue.obj [("refId", JValue.str "A"), ("expr", JValue.str "up")],
          JValue.obj [("refId", JValue.str "B"),
                      ("datasource", JValue.obj [("uid", JValue.str "ds2")]),
                      ("expr", JValue.str "sum(rate(up[5m]))")]])],
      JValue.obj [("id", JValue.num 2)]])]

/-- Claim C2, witness: on the concrete scenario dashboard the hypothesis
(every target entry is an object) holds and the extraction count equals the
spec-side sum of targets lengths. -/
theorem C2_witness :
    (extractPanelQueries wDashboard).length = specTargetCount wDashboard :=
  (C2_extraction_count wDashboard).2 (by decide)

/-! ## Claims C7 and C8 -/

/-- Claim C7.  Every `PanelQuery` produced by dashboard extraction comes from
an object panel and an object target of that panel, and its resolved
`DatasourceUID` and `DatasourceType` each equal the target-level datasource
value for that field when present (as a string), otherwise the panel-level
value when present, otherwise the empty string — resolved independently per
field, so a target may override only `uid` or only `type`. -/
theorem C7_datasource_resolution (d : JValue) (q : PanelQuery)
    (hq : q ∈ extractPanelQueries d) :
    ∃ pm, JValue.obj pm ∈ panelsOf d ∧ ∃ tm, JValue.obj tm ∈ targetsOf pm ∧
      q.rawQuery = tm ∧
      q.datasourceUID = specResolveDsField (dsField tm "uid") (dsField pm "uid") ∧
      q.datasourceType = specResolveDsField (dsField tm "type") (dsField pm "type") := by
  obtain ⟨pm, hpm, tm, htm, hx⟩ := mem_extractPanelQueries hq
  obtain ⟨tm2, heq, hpid, hpt, huid, htype, href, hexpr, hraw⟩ :=
    extractTarget_eq_some hx
  injection heq with h2
  subst h2
  refine ⟨pm, hpm, tm, htm, hraw, ?_, ?_⟩
  · rw [huid, targetDatasource_fst]
  · rw [htype, targetDatasource_snd]

/-- The first panel query of `wDashboard`: no target-level override, so both
datasource fields are inherited from the panel. -/
def wQuery7 : PanelQuery :=
  { panelID := 1
    panelTitle := "panel one"
    datasourceUID := "ds1"
    datasourceType := "prometheus"
    refID := "A"
    queryExpr := "up"
    rawQuery := [("refId", JValue.str "A"), ("expr", JValue.str "up")] }

/-- Claim C7, witness: the theorem applied to the concrete scenario
dashboard at its first extracted query. -/
theorem C7_witness :
    ∃ pm, JValue.obj pm ∈ panelsOf wDashboard ∧
      ∃ tm, JValue.obj tm ∈ targetsOf pm ∧
        wQuery7.rawQuery = tm ∧
        wQuery7.datasourceUID =
          specResolveDsField (dsField tm "uid") (dsField pm "uid") ∧
        wQuery7.datasourceType =
          specResolveDsField (dsField tm "type") (dsField pm "type") :=
  C7_datasource_resolution wDashboard wQuery7 (List.Mem.head _)

/-- Claim C8.  `QueryExpr` resolution: every extracted query's `QueryExpr`
is `resolveQueryExpr` of its own raw target node, and on any target node the
result is the `expr` field when present as a non-empty string (in particular
when both `expr` and `query` are set, the result is the `expr` value, never a
merge), else the `query` field when present as a non-empty string, else the
empty string. -/
theorem C8_queryexpr_resolution :
    (∀ (d : JValue) (q : PanelQuery), q ∈ extractPanelQueries d →
      q.queryExpr = resolveQueryExpr q.rawQuery) ∧
    (∀ (tm : List (String × JValue)) (e : String),
      jStrField tm "expr" = some e → e ≠ "" → resolveQueryExpr tm = e) ∧
    (∀ (tm : List (String × JValue)) (qv : String),
      (jStrField tm "expr" = none ∨ jStrField tm "expr" = some "") →
      jStrField tm "query" = some qv → qv ≠ "" → resolveQueryExpr tm = qv) ∧
    (∀ (tm : List (String × JValue)),
      (jStrField tm "expr" = none ∨ jStrField tm "expr" = some "") →
      (jStrField tm "query" = none ∨ jStrField tm "query" = some "") →
      resolveQueryExpr tm = "") := by
  refine ⟨?_, ?_, ?_, ?_⟩
  · intro d q hq
    obtain ⟨pm, hpm, tm, htm, hx⟩ := mem_extractPanelQueries hq
    obtain ⟨tm2, heq, hpid, hpt, huid, htype, href, hexpr, hraw⟩ :=
      extractTarget_eq_some hx
    injection heq with h2
    subst h2
    rw [hexpr, hraw]
  · intro tm e he hne
    unfold resolveQueryExpr
    rw [he]
    simp [hne]
  · intro tm qv hexpr hq hne
    unfold resolveQueryExpr
    rcases hexpr with h | h <;> rw [h, hq] <;> simp [hne]
  · intro tm hexpr hquery
    unfold resolveQueryExpr
    rcases hexpr with h | h <;> rcases hquery with h2 | h2 <;> rw [h, h2] <;> simp

/-- A target node with both `expr` and `query` set to non-empty strings. -/
def wTarget8 : List (String × JValue) :=
  [("expr", JValue.str "up"), ("query", JValue.str "other")]

/-- Claim C8, witness: on a target carrying both fields, resolution returns
the `expr` value. -/
theorem C8_witness : resolveQueryExpr wTarget8 = "up" :=
  C8_queryexpr_resolution.2.1 wTarget8 "up" rfl (by decide)

/-! ## Helper lemmas: alert-rule aggregation -/

theorem mem_rulesWithState {groups : List PrometheusRuleGroup}
    {s : RuleSummary} :
    s ∈ rulesWithState groups ↔
      ∃ g ∈ groups, ∃ r ∈ g.rules, r.type = "alerting" ∧
        s = ruleStateSummary g.name r := by
  unfold rulesWithState
  constructor
  · intro h
    obtain ⟨g, hg, hs⟩ := List.mem_flatMap.mp h
    obtain ⟨r, hr, rfl⟩ := List.mem_map.mp hs
    obtain ⟨hrmem, hrty⟩ := List.mem_filter.mp hr
    exact ⟨g, hg, r, hrmem, by simpa using hrty, rfl⟩
  · rintro ⟨g, hg, r, hr, hty, rfl⟩
    refine List.mem_flatMap.mpr ⟨g, hg, List.mem_map.mpr ⟨r, ?_, rfl⟩⟩
    exact List.mem_filter.mpr ⟨hr, by simpa using hty⟩

theorem stateMapLookup_isSome {stateRules : List RuleSummary} {key : String} :
    (stateMapLookup stateRules key).isSome = true ↔
      ∃ sr ∈ stateRules, alertStateKey sr.title sr.ruleGroup = key := by
  unfold stateMapLookup
  rw [List.find?_isSome]
  simp [List.mem_reverse]

theorem stateMapLookup_some {stateRules : List RuleSummary} {key : String}
    {sr : RuleSummary} (h : stateMapLookup stateRules key = some sr) :
    sr ∈ stateRules ∧ alertStateKey sr.title sr.ruleGroup = key := by
  unfold stateMapLookup at h
  refine ⟨List.mem_reverse.mp (List.mem_of_find?_eq_some h), ?_⟩
  simpa using List.find?_some h

/-! ## Claim C9 -/

/-- Claim C9.  A summary is in the live-state list if and only if it comes
from a rule whose declared `Type` is `"alerting"`; consequently anything the
state map returns (for any key) was built from an alerting-type entry, so a
`Type:"recording"` entry never appears as, or overrides the state of, an
alerting summary. -/
theorem C9_recording_rules_filtered (groups : List PrometheusRuleGroup) :
    (∀ s : RuleSummary, s ∈ rulesWithState groups ↔
      ∃ g ∈ groups, ∃ r ∈ g.rules, r.type = "alerting" ∧
        s = ruleStateSummary g.name r) ∧
    (∀ (key : String) (ss : RuleSummary),
      stateMapLookup (rulesWithState groups) key = some ss →
      ∃ g ∈ groups, ∃ r ∈ g.rules, r.type = "alerting" ∧
        ss = ruleStateSummary g.name r) := by
  refine ⟨fun s => mem_rulesWithState, fun key ss h => ?_⟩
  exact mem_rulesWithState.mp (stateMapLookup_some h).1

/-- The spec scenario's alerting-type live entry. -/
def wPromAlerting : PrometheusRule :=
  { name := "HighCPU"
    query := "cpu > 0.9"
    labels := []
    annotations := []
    state := "firing"
    health := "ok"
    type := "alerting" }

/-- The spec scenario's recording-type live entry with the same name and
group as `wPromAlerting`. -/
def wPromRecording : PrometheusRule :=
  { name := "HighCPU"
    query := "cpu"
    labels := []
    annotations := []
    state := "bogus"
    health := "bogus"
    type := "recording" }

/-- A live rule group carrying both entries. -/
def wGroup9 : PrometheusRuleGroup :=
  { name := "infra", rules := [wPromAlerting, wPromRecording] }

/-- Claim C9, witness: on the concrete scenario group the alerting summary
is in the lookup list and the recording entry contributed nothing (the list
is exactly the one alerting-derived summary). -/
theorem C9_witness :
    ruleStateSummary "infra" wPromAlerting ∈ rulesWithState [wGroup9] ∧
    rulesWithState [wGroup9] = [ruleStateSummary "infra" wPromAlerting] := by
  refine ⟨?_, rfl⟩
  exact ((C9_recording_rules_filtered [wGroup9]).1 _).mpr
    ⟨wGroup9, List.mem_cons_self _ _, wPromAlerting, List.mem_cons_self _ _,
      rfl, rfl⟩

/-! ## Claim C5 -/

/-- Claim C5.  If the live-state fetch fails while the provisioning fetch
succeeded, the listing still succeeds and returns one summary per
provisioning rule, each with empty `State` and `Health`; the call fails
exactly when the provisioning fetch fails, and an ok provisioning fetch
always yields an ok call whatever the state fetch did. -/
theorem C5_enrichment_failure_nonfatal :
    (∀ (rules : List Rule) (e : String),
      listRulesResult (.ok rules) true (.error e) =
        .ok (rules.map (ruleToSummary true [])) ∧
      (rules.map (ruleToSummary true [])).length = rules.length ∧
      ∀ s ∈ rules.map (ruleToSummary true []), s.state = "" ∧ s.health = "") ∧
    (∀ (e : String) (includeState : Bool)
      (stateFetch : Except String (List PrometheusRuleGroup)),
      listRulesResult (.error e) includeState stateFetch = .error e) ∧
    (∀ (rules : List Rule) (includeState : Bool)
      (stateFetch : Except String (List PrometheusRuleGroup)),
      ∃ summaries,
        listRulesResult (.ok rules) includeState stateFetch = .ok summaries) := by
  refine ⟨fun rules e => ⟨rfl, by simp, ?_⟩, fun e iS sF => rfl,
    fun rules iS sF => ⟨_, rfl⟩⟩
  intro s hs
  obtain ⟨r, hr, rfl⟩ := List.mem_map.mp hs
  exact ⟨rfl, rfl⟩

/-- A concrete provisioning rule (the spec scenario's `HighCPU` rule). -/
def wRule1 : Rule :=
  { uid := "u1"
    title := "HighCPU"
    folderUID := "folder1"
    ruleGroup := "infra"
    forDuration := "5m"
    annotations := []
    labels := []
    condition := "C"
    noDataState := "NoData"
    execErrState := "Error"
    updated := "2024-01-01T00:00:00Z"
    isPaused := false }

/-- Claim C5, witness: with a failing state fetch the concrete call succeeds
and the summary of `wRule1` has empty state and health. -/
theorem C5_witness :
    listRulesResult (.ok [wRule1]) true (.error "transport error") =
      .ok ([wRule1].map (ruleToSummary true [])) ∧
    (ruleToSummary true [] wRule1).state = "" ∧
    (ruleToSummary true [] wRule1).health = "" := by
  have h := C5_enrichment_failure_nonfatal.1 [wRule1] "transport error"
  have hmem : ruleToSummary true [] wRule1 ∈ [wRule1].map (ruleToSummary true []) :=
    List.mem_map_of_mem _ (List.mem_cons_self _ _)
  exact ⟨h.1, (h.2.2 _ hmem).1, (h.2.2 _ hmem).2⟩

/-! ## Claim C3 -/

/-- Claim C3.  For every alert-rule listing call, the effective limit is
positive and is forwarded to the provisioning fetch as the `limit` query
parameter; the listing itself never truncates (one summary per fetched
rule), so whenever the provisioning source honours the limit — which the
claim itself assumes — the returned sequence has length at most the
effective limit. -/
theorem C3_limit_bound (paramsLimit : Int) (rules : List Rule)
    (includeState : Bool)
    (stateFetch : Except String (List PrometheusRuleGroup))
    (h : (rules.length : Int) ≤ effectiveRulesLimit paramsLimit) :
    0 < effectiveRulesLimit paramsLimit ∧
    listRulesQueryParams (effectiveRulesLimit paramsLimit) =
      [("limit", toString (effectiveRulesLimit paramsLimit))] ∧
    ∃ summaries,
      listRulesResult (.ok rules) includeState stateFetch = .ok summaries ∧
      summaries.length = rules.length ∧
      (summaries.length : Int) ≤ effectiveRulesLimit paramsLimit := by
  have hpos : 0 < effectiveRulesLimit paramsLimit := by
    unfold effectiveRulesLimit DefaultRulesLimit
    split <;> omega
  refine ⟨hpos, ?_, ?_⟩
  · unfold listRulesQueryParams
    rw [if_pos hpos]
  · exact ⟨_, rfl, by simp, by simpa using h⟩

/-- Claim C3, witness: a defaulted limit (request 0 becomes 100) with one
fetched rule. -/
theorem C3_witness :
    0 < effectiveRulesLimit 0 ∧
    listRulesQueryParams (effectiveRulesLimit 0) =
      [("limit", toString (effectiveRulesLimit 0))] ∧
    ∃ summaries,
      listRulesResult (.ok [wRule1]) false (.ok []) = .ok summaries ∧
      summaries.length = [wRule1].length ∧
      (summaries.length : Int) ≤ effectiveRulesLimit 0 :=
  C3_limit_bound 0 [wRule1] false (.ok []) (by decide)

/-! ## Claim C1 -/

/-- Claim C1 (amended).  For every enriched alert-rule listing whose two
fetches succeed, the call returns exactly one summary per provisioning rule
(none dropped, in order), and a summary's `State`/`Health` are copied from a
`RuleState` record if and only if some alerting-type live entry has the same
CONCATENATED key `Title + "|" + RuleGroup` as the rule; when the lookup
succeeds the copied values come from an alerting-type record whose
concatenated key matches, and when it fails the summary keeps empty
`State`/`Health`.  Exact `(Title, RuleGroup)` pair equality implies key
equality, but not conversely when the strings contain `"|"` — see the
counterexample. -/
theorem C1_state_enrichment (rules : List Rule)
    (groups : List PrometheusRuleGroup) :
    (listRulesResult (.ok rules) true (.ok groups) =
      .ok (rules.map (ruleToSummary true (rulesWithState groups)))) ∧
    ((rules.map (ruleToSummary true (rulesWithState groups))).length =
      rules.length) ∧
    (∀ r : Rule,
      ((stateMapLookup (rulesWithState groups)
          (alertStateKey r.title r.ruleGroup)).isSome = true ↔
        ∃ g ∈ groups, ∃ pr ∈ g.rules, pr.type = "alerting" ∧
          alertStateKey pr.name g.name = alertStateKey r.title r.ruleGroup)) ∧
    (∀ (r : Rule) (ss : RuleSummary),
      stateMapLookup (rulesWithState groups)
          (alertStateKey r.title r.ruleGroup) = some ss →
      ruleToSummary true (rulesWithState groups) r =
        { baseSummary r with state := ss.state, health := ss.health } ∧
      ss ∈ rulesWithState groups ∧
      alertStateKey ss.title ss.ruleGroup = alertStateKey r.title r.ruleGroup) ∧
    (∀ r : Rule,
      stateMapLookup (rulesWithState groups)
          (alertStateKey r.title r.ruleGroup) = none →
      ruleToSummary true (rulesWithState groups) r = baseSummary r) := by
  refine ⟨rfl, by simp, fun r => ?_, fun r ss h => ?_, fun r h => ?_⟩
  · rw [stateMapLookup_isSome]
    constructor
    · rintro ⟨sr, hsr, hkey⟩
      obtain ⟨g, hg, pr, hpr, hty, rfl⟩ := mem_rulesWithState.mp hsr
      exact ⟨g, hg, pr, hpr, hty, hkey⟩
    · rintro ⟨g, hg, pr, hpr, hty, hkey⟩
      exact ⟨ruleStateSummary g.name pr,
        mem_rulesWithState.mpr ⟨g, hg, pr, hpr, hty, rfl⟩, hkey⟩
  · obtain ⟨hmem, hkey⟩ := stateMapLookup_some h
    refine ⟨?_, hmem, hkey⟩
    unfold ruleToSummary
    rw [if_pos rfl, h]
  · unfold ruleToSummary
    rw [if_pos rfl, h]

/-- A provisioning rule whose title contains the key separator `"|"`. -/
def cxRule1 : Rule :=
  { uid := "u-cx"
    title := "a|b"
    folderUID := "f"
    ruleGroup := "c"
    forDuration := "1m"
    annotations := []
    labels := []
    condition := "C"
    noDataState := "NoData"
    execErrState := "Error"
    updated := ""
    isPaused := false }

/-- An alerting-type live entry with a DIFFERENT `(Title, RuleGroup)` pair
whose concatenated key nevertheless collides with `cxRule1`. -/
def cxPromRule1 : PrometheusRule :=
  { name := "a"
    query := "q"
    labels := []
    annotations := []
    state := "firing"
    health := "ok"
    type := "alerting" }

/-- The live rule group completing the collision: key of `cxPromRule1` in
this group is also `a|b|c`. -/
def cxGroup1 : PrometheusRuleGroup :=
  { name := "b|c", rules := [cxPromRule1] }

/-- Claim C1, counterexample to the claim as stated: the summary of
`cxRule1` (Title `a|b`, RuleGroup `c`) gets `State:"firing"`/`Health:"ok"`
copied from the live entry (Title `a`, RuleGroup `b|c`), yet NO alerting
`RuleState` record has exactly the same `(Title, RuleGroup)` pair — the
concatenated-key lookup conflates the two pairs. -/
theorem C1_counterexample :
    listRulesResult (.ok [cxRule1]) true (.ok [cxGroup1]) =
      .ok [ruleToSummary true (rulesWithState [cxGroup1]) cxRule1] ∧
    (ruleToSummary true (rulesWithState [cxGroup1]) cxRule1).state = "firing" ∧
    (ruleToSummary true (rulesWithState [cxGroup1]) cxRule1).health = "ok" ∧
    ((rulesWithState [cxGroup1]).all
      (fun sr => !(sr.title == cxRule1.title &&
                   sr.ruleGroup == cxRule1.ruleGroup))) = true := by
  refine ⟨rfl, ?_, ?_, ?_⟩ <;> decide

/-- One live rule group for the enrichment scenario (`HighCPU` in `infra`,
firing, alerting type). -/
def wGroup1 : PrometheusRuleGroup :=
  { name := "infra", rules := [wPromAlerting] }

/-- Claim C1, witness: the spec's enrichment scenario — provisioning rule
`HighCPU`/`infra` plus a matching firing alerting live entry yields a
summary with `State:"firing"`, `Health:"ok"`. -/
theorem C1_witness :
    listRulesResult (.ok [wRule1]) true (.ok [wGroup1]) =
      .ok ([wRule1].map (ruleToSummary true (rulesWithState [wGroup1]))) ∧
    (ruleToSummary true (rulesWithState [wGroup1]) wRule1).state = "firing" ∧
    (ruleToSummary true (rulesWithState [wGroup1]) wRule1).health = "ok" := by
  have h := (C1_state_enrichment [wRule1] [wGroup1]).2.2.2.1 wRule1
    (ruleStateSummary "infra" wPromAlerting) rfl
  exact ⟨(C1_state_enrichment [wRule1] [wGroup1]).1,
    by rw [h.1]; rfl, by rw [h.1]; rfl⟩

/-! ## Claim C4 -/

theorem length_dropWhile_le {α : Type} (p : α → Bool) (l : List α) :
    (l.dropWhile p).length ≤ l.length :=
  (List.dropWhile_sublist (l := l) (p := p)).length_le

theorem trimSpace_length_le (bs : List UInt8) :
    (trimSpace bs).length ≤ bs.length := by
  unfold trimSpace
  calc ((bs.dropWhile isASCIISpace).reverse.dropWhile isASCIISpace).reverse.length
      = ((bs.dropWhile isASCIISpace).reverse.dropWhile isASCIISpace).length := by
        rw [List.length_reverse]
    _ ≤ (bs.dropWhile isASCIISpace).reverse.length :=
        length_dropWhile_le _ _
    _ = (bs.dropWhile isASCIISpace).length := by rw [List.length_reverse]
    _ ≤ bs.length := length_dropWhile_le _ _

/-- Claim C4 (amended).  For every LOG (Loki) fetch, any body the client
returns went through the 48 MiB bounded reader, so its length is at most
`lokiBodyLimit`.  The original claim extended the cap to trace fetches, but
the tempo client reads the response body with a plain `io.ReadAll` and no
`LimitReader` — see the counterexample. -/
theorem C4_loki_body_capped (status : Nat) (body out : List UInt8)
    (h : lokiMakeRequest status body = Except.ok out) :
    out.length ≤ lokiBodyLimit := by
  unfold lokiMakeRequest at h
  by_cases hs : status ≠ 200
  · rw [if_pos hs] at h
    cases h
  · rw [if_neg hs] at h
    by_cases he : (body.take lokiBodyLimit).length = 0
    · rw [if_pos he] at h
      cases h
    · rw [if_neg he] at h
      injection h with h2
      subst h2
      calc (trimSpace (body.take lokiBodyLimit)).length
          ≤ (body.take lokiBodyLimit).length := trimSpace_length_le _
        _ ≤ lokiBodyLimit := List.length_take_le _ _

/-- Claim C4, witness: a small successful loki fetch obeys the cap. -/
theorem C4_witness : ([65] : List UInt8).length ≤ lokiBodyLimit :=
  C4_loki_body_capped 200 [65] [65] rfl

/-- A response body one byte over the 48 MiB ceiling. -/
def cxHugeBody : List UInt8 := List.replicate (lokiBodyLimit + 1) 37

/-- Claim C4, counterexample to the claim as stated: the tempo client
(used by both the trace search and the trace-by-ID fetch) returns an
upstream body larger than 48 MiB unchanged — trace fetches are not read
through a bounded reader. -/
theorem C4_counterexample :
    tempoMakeRequest 200 cxHugeBody = Except.ok cxHugeBody ∧
    cxHugeBody.length = lokiBodyLimit + 1 ∧
    lokiBodyLimit < cxHugeBody.length := by
  refine ⟨?_, ?_, ?_⟩
  · simp [tempoMakeRequest]
  · simp [cxHugeBody, List.length_replicate]
  · simp [cxHugeBody, List.length_replicate]

/-! ## Claim C6 -/

theorem foldDigits_mono (cs : List Char) (acc : Nat) :
    acc ≤ cs.foldl (fun a c => a * 10 + (c.toNat - 48)) acc := by
  induction cs generalizing acc with
  | nil => exact Nat.le_refl _
  | cons c cs ih =>
    rw [List.foldl_cons]
    exact le_trans (by omega) (ih (acc * 10 + (c.toNat - 48)))

theorem parseUint64Go_eq_some (cs : List Char) (acc : Nat)
    (hall : ∀ c ∈ cs, c.isDigit = true)
    (hle : cs.foldl (fun a c => a * 10 + (c.toNat - 48)) acc ≤ maxUint64) :
    parseUint64Go cs acc =
      some (cs.foldl (fun a c => a * 10 + (c.toNat - 48)) acc) := by
  induction cs generalizing acc with
  | nil => rfl
  | cons c cs ih =>
    have hc : c.isDigit = true := hall c (List.Mem.head _)
    rw [List.foldl_cons] at hle ⊢
    have hacc2 : acc * 10 + (c.toNat - 48) ≤ maxUint64 :=
      le_trans (foldDigits_mono cs _) hle
    unfold parseUint64Go
    rw [if_pos hc]
    show (if acc * 10 + (c.toNat - 48) ≤ maxUint64 then
        parseUint64Go cs (acc * 10 + (c.toNat - 48)) else none) = _
    rw [if_pos hacc2]
    exact ih _ (fun x hx => hall x (List.Mem.tail _ hx)) hle

theorem parseUint64Go_some_inv (cs : List Char) (acc v : Nat)
    (hacc : acc ≤ maxUint64) (h : parseUint64Go cs acc = some v) :
    (∀ c ∈ cs, c.isDigit = true) ∧
    v = cs.foldl (fun a c => a * 10 + (c.toNat - 48)) acc ∧
    v ≤ maxUint64 := by
  induction cs generalizing acc with
  | nil =>
    unfold parseUint64Go at h
    injection h with h2
    subst h2
    exact ⟨by simp, rfl, hacc⟩
  | cons c cs ih =>
    unfold parseUint64Go at h
    by_cases hc : c.isDigit = true
    · rw [if_pos hc] at h
      by_cases h2 : acc * 10 + (c.toNat - 48) ≤ maxUint64
      · rw [if_pos h2] at h
        obtain ⟨ha, hv, hle⟩ := ih _ h2 h
        refine ⟨?_, by rw [List.foldl_cons]; exact hv, hle⟩
        intro x hx
        rcases List.mem_cons.mp hx with rfl | hx2
        · exact hc
        · exact ha x hx2
      · rw [if_neg h2] at h
        cases h
    · rw [if_neg hc] at h
      cases h

/-- Claim C6.  Uint64-as-string decoding: the JSON string `""` decodes to 0
with no error; `"12345678901234"` decodes to that value; `"abc"` yields a
decode error; in general every non-empty string that is not a valid base-10
uint64 (not all digits, or over the 64-bit range) yields an error, and every
valid one decodes to its base-10 value. -/
theorem C6_uint64_string_decoding :
    uint64StringUnmarshalJSON (JValue.str "") = Except.ok 0 ∧
    uint64StringUnmarshalJSON (JValue.str "12345678901234") =
      Except.ok 12345678901234 ∧
    (uint64StringUnmarshalJSON (JValue.str "abc")).isOk = false ∧
    (∀ s : String, s ≠ "" → isValidUint64 s = false →
      (uint64StringUnmarshalJSON (JValue.str s)).isOk = false) ∧
    (∀ s : String, isValidUint64 s = true →
      uint64StringUnmarshalJSON (JValue.str s) = Except.ok (digitsValue s)) := by
  refine ⟨rfl, rfl, rfl, ?_, ?_⟩
  · intro s hne hval
    show (if s = "" then Except.ok 0
      else match parseUint64 s with
        | some v => Except.ok v
        | none =>
          Except.error ("parsing uint64 from string " ++ s)).isOk = false
    rw [if_neg hne]
    cases hp : parseUint64 s with
    | none => rfl
    | some v =>
      exfalso
      unfold parseUint64 at hp
      have hemp : s.isEmpty = false := by
        cases h0 : s.isEmpty with
        | false => rfl
        | true => exact absurd ((String.isEmpty_iff s).mp h0) hne
      rw [hemp] at hp
      simp only [Bool.false_eq_true, if_false] at hp
      obtain ⟨hall, hv, hle⟩ :=
        parseUint64Go_some_inv s.data 0 v (by unfold maxUint64; omega) hp
      have hd : digitsValue s = v := by
        unfold digitsValue
        rw [hv]
      have hvalid : isValidUint64 s = true := by
        unfold isValidUint64
        rw [hemp, hd]
        simp only [Bool.not_false, Bool.true_and, Bool.and_eq_true,
          List.all_eq_true, decide_eq_true_eq]
        exact ⟨hall, hle⟩
      rw [hval] at hvalid
      cases hvalid
  · intro s hval
    unfold isValidUint64 at hval
    simp only [Bool.and_eq_true, Bool.not_eq_eq_eq_not, Bool.not_true,
      decide_eq_true_eq, List.all_eq_true] at hval
    obtain ⟨⟨hemp, hall⟩, hle⟩ := hval
    have hne : s ≠ "" := fun h => by
      rw [h] at hemp
      cases hemp
    show (if s = "" then Except.ok 0
      else match parseUint64 s with
        | some v => Except.ok v
        | none =>
          Except.error ("parsing uint64 from string " ++ s)) =
      Except.ok (digitsValue s)
    rw [if_neg hne]
    unfold parseUint64
    rw [hemp]
    simp only [Bool.false_eq_true, if_false]
    rw [parseUint64Go_eq_some s.data 0 hall (by unfold digitsValue at hle; exact hle)]
    rfl

/-! ## Claim C10 -/

/-- Claim C10.  The effective Tempo trace-search limit always lies in
1..100: a request at most 0 maps to the default 20, a request above 100 is
clamped to 100, a request already in 1..100 is returned unchanged; the
function is idempotent; and the search always sends the effective limit
upstream as the `limit` query parameter. -/
theorem C10_trace_limit_range (n : Int) :
    1 ≤ enforceTraceLimit n ∧ enforceTraceLimit n ≤ 100 ∧
    (n ≤ 0 → enforceTraceLimit n = 20) ∧
    (100 < n → enforceTraceLimit n = 100) ∧
    (1 ≤ n → n ≤ 100 → enforceTraceLimit n = n) ∧
    enforceTraceLimit (enforceTraceLimit n) = enforceTraceLimit n ∧
    ∀ q s e : String, ("limit", toString (enforceTraceLimit n)) ∈
      tempoSearchParams q s e (enforceTraceLimit n) := by
  have hpos : 0 < enforceTraceLimit n := by
    unfold enforceTraceLimit DefaultTraceLimit MaxTraceLimit
    split_ifs <;> omega
  refine ⟨by omega, ?_, ?_, ?_, ?_, ?_, ?_⟩
  · unfold enforceTraceLimit DefaultTraceLimit MaxTraceLimit
    split_ifs <;> omega
  · intro h
    unfold enforceTraceLimit DefaultTraceLimit MaxTraceLimit
    split_ifs
    omega
  · intro h
    unfold enforceTraceLimit DefaultTraceLimit MaxTraceLimit
    split_ifs <;> omega
  · intro h1 h2
    unfold enforceTraceLimit DefaultTraceLimit MaxTraceLimit
    split_ifs <;> omega
  · unfold enforceTraceLimit DefaultTraceLimit MaxTraceLimit
    split_ifs <;> omega
  · intro q s e
    unfold tempoSearchParams
    rw [if_pos hpos]
    simp [List.mem_append]

/-- Claim C10, witness: an over-range request is clamped to 100 and an
in-range request is preserved; the clamped limit is sent as the query
parameter. -/
theorem C10_witness :
    enforceTraceLimit 250 = 100 ∧
    enforceTraceLimit 7 = 7 ∧
    ("limit", toString (enforceTraceLimit 250)) ∈
      tempoSearchParams "" "" "" (enforceTraceLimit 250) :=
  ⟨(C10_trace_limit_range 250).2.2.2.1 (by decide),
   (C10_trace_limit_range 7).2.2.2.2.1 (by decide) (by decide),
   (C10_trace_limit_range 250).2.2.2.2.2.2 "" "" ""⟩

end McpGrafana
